import Mathlib

/-!
Verification of the Sproingle turn engine.

The repository holds two evolution stages of the same `App.tsx`:
 * `V0` — the stage whose constants file is `src/constants.ts`
   (`VIEWPORT 13×20`, `BOMB_FUSE_STEPS = 6`, `BOMB_RANGE = 6`, plus-shaped
   wall-stopped blasts, per-screen enemy activation);
 * `V1` — the stage whose constants are the second constants file
   (`BOMB_FUSE_STEPS = 4`, `BOMB_RANGE = 2`, Euclidean-radius blasts,
   all-enemies activation, `stepsTaken` / augment hooks).

Every definition below is a direct translation of the corresponding
TypeScript function; JavaScript numbers are modelled as `Int` where they can
go negative (hit points, attack values, damage bonuses, coordinates, bomb
fuses) and as `Nat` where the code keeps them non-negative (consumable
counts, gold, xp, levels, counters).  `Math.random()`-derived values are
passed in explicitly as parameters.  React `setState` updater functions are
modelled as plain state-to-state functions; `setTimeout`-deferred updates
that only clear presentation flags are noted in comments where they occur.
-/

namespace Sproingle

inductive Tile
  | floor
  | wall
deriving DecidableEq, Repr

inductive Direction
  | up
  | down
  | left
  | right
deriving DecidableEq, Repr

inductive PlayerClass
  | knight
  | ranger
  | sapper
deriving DecidableEq, Repr

inductive EnemyType
  | goblin
  | slime
  | skeleton
  | spider
  | slimeMini
deriving DecidableEq, Repr

inductive ItemType
  | potion
  | gold
  | arrows
  | bomb
  | antidote
deriving DecidableEq, Repr

inductive HazardType
  | spikes
  | fire
  | pit
deriving DecidableEq, Repr

/-- The `Player` interface of `types.ts`.  `stepsTaken` exists only in the
`V1` evolution stage; `V0` functions never read or write it. -/
@[ext]
structure Player where
  x : Int
  y : Int
  hp : Int
  maxHp : Int
  attack : Int
  arrows : Nat
  maxArrows : Nat
  bombs : Nat
  maxBombs : Nat
  potions : Nat
  antidotes : Nat
  gold : Nat
  level : Nat
  xp : Nat
  xpToNextLevel : Nat
  playerClass : PlayerClass
  lastMoveDirection : Option Direction
  isPoisoned : Bool
  poisonStepCounter : Nat
  meleeDamageBonus : Int
  arrowDamageBonus : Int
  bombDamageBonus : Int
  corruption : Nat
  activeAugments : List String
  stepsTaken : Nat
deriving DecidableEq, Repr

@[ext]
structure Enemy where
  id : Nat
  type : EnemyType
  x : Int
  y : Int
  hp : Int
  attack : Int
  isHit : Bool
deriving DecidableEq, Repr

structure Item where
  type : ItemType
  x : Int
  y : Int
deriving DecidableEq, Repr

structure Hazard where
  type : HazardType
  x : Int
  y : Int
deriving DecidableEq, Repr

@[ext]
structure Bomb where
  x : Int
  y : Int
  stepsRemaining : Int
  id : Nat
deriving DecidableEq, Repr

/-- The `GameState` aggregate of `types.ts`.  The picked-up-item set keyed by
the string `"x,y"` is modelled as a duplicate-free list of coordinate pairs
(the key format is injective on integer coordinates); purely presentational
fields (themes, doodads, damage numbers) are omitted. -/
structure GameState where
  map : List (List Tile)
  player : Player
  enemies : List Enemy
  items : List Item
  exit : Option (Int × Int)
  wizard : Option (Int × Int)
  hazards : List Hazard
  bombs : List Bomb
  activeBlasts : List (Int × Int)
  pickedUpItems : List (Int × Int)
  level : Nat
  camera : Int × Int
  altars : List (Int × Int)
deriving DecidableEq, Repr

/-- The JavaScript lookup `map[y]?.[x]`: `none` when either index is out of
range (negative or past the end). -/
def tileAt (m : List (List Tile)) (x y : Int) : Option Tile :=
  if 0 ≤ y ∧ 0 ≤ x then (m.get? y.toNat).bind (fun row => row.get? x.toNat) else none

/-- One tile step in a direction (`nextY--` for `ArrowUp`, etc.). -/
def stepPos (x y : Int) : Direction → Int × Int
  | .up => (x, y - 1)
  | .down => (x, y + 1)
  | .left => (x - 1, y)
  | .right => (x + 1, y)

/-! ## V0 : the evolution stage paired with `src/constants.ts` -/

namespace V0

def VIEWPORT_WIDTH : Int := 13
def VIEWPORT_HEIGHT : Int := 20
def WORLD_SCREENS_W : Int := 3
def WORLD_SCREENS_H : Int := 3
def BOMB_FUSE_STEPS : Int := 6
def BOMB_RANGE : Nat := 6
def POISON_TICK_STEPS : Nat := 3
def POISON_DAMAGE : Int := 5

/-- The per-class `stats` records of `PLAYER_CLASSES` in `constants.ts`. -/
structure ClassStats where
  maxHp : Int
  hp : Int
  attack : Int
  gold : Nat
  arrows : Nat
  maxArrows : Nat
  bombs : Nat
  maxBombs : Nat
  potions : Nat
  antidotes : Nat
  meleeDamageBonus : Int
  arrowDamageBonus : Int
  bombDamageBonus : Int
deriving DecidableEq, Repr

def classStats : PlayerClass → ClassStats
  | .knight =>
    { maxHp := 120, hp := 120, attack := 12, gold := 0,
      arrows := 0, maxArrows := 3, bombs := 0, maxBombs := 3, potions := 1, antidotes := 0,
      meleeDamageBonus := 2, arrowDamageBonus := 0, bombDamageBonus := -15 }
  | .ranger =>
    { maxHp := 100, hp := 100, attack := 10, gold := 0,
      arrows := 6, maxArrows := 9, bombs := 0, maxBombs := 3, potions := 0, antidotes := 1,
      meleeDamageBonus := -2, arrowDamageBonus := 5, bombDamageBonus := -10 }
  | .sapper =>
    { maxHp := 100, hp := 100, attack := 10, gold := 10,
      arrows := 0, maxArrows := 3, bombs := 3, maxBombs := 5, potions := 1, antidotes := 0,
      meleeDamageBonus := 0, arrowDamageBonus := -5, bombDamageBonus := 25 }

/-- The player produced by `restartGame` followed by `newGame(1, retained)`.
`retainedPlayer` is built with object-spread syntax in this order:
`playerClass`, `level`, `maxHp`, `attack`, `gold: floor(gold/2)`, `xp: 0`,
then `...classDefaults` (all thirteen `ClassStats` fields, which therefore
OVERWRITE the `maxHp`, `attack` and halved `gold` listed before them), then
`corruption` and `activeAugments`.  `newGame` merges
`{...dungeon.player, ...retainedPlayer}`, so fields absent from
`retainedPlayer` (position, `xpToNextLevel`, poison state, aim direction,
`stepsTaken`) come from the dungeon generator's player `dung`. -/
def restartPlayer (pre dung : Player) : Player :=
  let cs := classStats pre.playerClass
  { x := dung.x, y := dung.y,
    hp := cs.hp, maxHp := cs.maxHp, attack := cs.attack,
    arrows := cs.arrows, maxArrows := cs.maxArrows,
    bombs := cs.bombs, maxBombs := cs.maxBombs,
    potions := cs.potions, antidotes := cs.antidotes,
    gold := cs.gold,
    level := pre.level, xp := 0, xpToNextLevel := dung.xpToNextLevel,
    playerClass := pre.playerClass,
    lastMoveDirection := dung.lastMoveDirection,
    isPoisoned := dung.isPoisoned, poisonStepCounter := dung.poisonStepCounter,
    meleeDamageBonus := cs.meleeDamageBonus, arrowDamageBonus := cs.arrowDamageBonus,
    bombDamageBonus := cs.bombDamageBonus,
    corruption := pre.corruption, activeAugments := pre.activeAugments,
    stepsTaken := dung.stepsTaken }

/-- The poison-tick block at the top of `processTurn`: while poisoned the
step counter is incremented and, on reaching `POISON_TICK_STEPS`, reset to
`0` with `POISON_DAMAGE` subtracted from hp. -/
def poisonPhase (p : Player) : Player :=
  if p.isPoisoned then
    let c := p.poisonStepCounter + 1
    if POISON_TICK_STEPS ≤ c then
      { p with poisonStepCounter := 0, hp := p.hp - POISON_DAMAGE }
    else
      { p with poisonStepCounter := c }
  else p

/-- `prev.bombs.map(b => ({...b, stepsRemaining: b.stepsRemaining - 1}))`
followed by the `stepsRemaining > 0` filter that keeps unexploded bombs. -/
def tickBombs (bs : List Bomb) : List Bomb :=
  ((bs.map (fun b => { b with stepsRemaining := b.stepsRemaining - 1 })).filter
    (fun b => 0 < b.stepsRemaining))

/-- The complementary `stepsRemaining <= 0` filter that collects the bombs
detonating this turn. -/
def explodedBombs (bs : List Bomb) : List Bomb :=
  ((bs.map (fun b => { b with stepsRemaining := b.stepsRemaining - 1 })).filter
    (fun b => b.stepsRemaining ≤ 0))

/-- Push a blast tile unless already recorded
(`if (!newActiveBlasts.some(...)) newActiveBlasts.push(...)`). -/
def pushIfAbsent (acc : List (Int × Int)) (p : Int × Int) : List (Int × Int) :=
  if p ∈ acc then acc else acc ++ [p]

/-- The per-direction `(dx, dy)` of the blast loops: direction index `0` is
`+x`, `1` is `-x`, `2` is `+y`, `3` is `-y`, scaled by the arm offset `j`. -/
def blastDelta (i j : Nat) : Int × Int :=
  (if i = 0 then (j : Int) else if i = 1 then -(j : Int) else 0,
   if i = 2 then (j : Int) else if i = 3 then -(j : Int) else 0)

/-- One blast arm: walk `j = 1..BOMB_RANGE` outward, `break` at the first
wall tile, and record every tile reached before it (tiles outside the map
are not walls, so the arm runs through them). -/
def blastArm (m : List (List Tile)) (bx by_ : Int) (i : Nat)
    (acc : List (Int × Int)) : List (Int × Int) :=
  (((List.range BOMB_RANGE).map (· + 1)).foldl
    (fun st j =>
      if st.1 then st
      else
        let d := blastDelta i j
        let t := (bx + d.1, by_ + d.2)
        if tileAt m t.1 t.2 = some Tile.wall then (true, st.2)
        else (false, pushIfAbsent st.2 t))
    (false, acc)).2

/-- Blast area of one bomb: the four arms, then the bomb's own tile. -/
def bombBlast (m : List (List Tile)) (b : Bomb) (acc : List (Int × Int)) :
    List (Int × Int) :=
  pushIfAbsent ((List.range 4).foldl (fun acc2 i => blastArm m b.x b.y i acc2) acc) (b.x, b.y)

/-- `newActiveBlasts` accumulated over every exploding bomb. -/
def allBlasts (m : List (List Tile)) (bs : List Bomb) : List (Int × Int) :=
  bs.foldl (fun acc b => bombBlast m b acc) []

/-- Blast damage to the enemy list: every living enemy standing on a blast
tile loses `bombDamage` hp and gets its `isHit` flag (the queued
`handleEnemyDefeated` xp update on lethal damage is a separate state
transition and is not part of the state `processTurn` returns). -/
def blastEnemies (blasts : List (Int × Int)) (dmg : Int) (es : List Enemy) : List Enemy :=
  es.map (fun e =>
    if 0 < e.hp ∧ (e.x, e.y) ∈ blasts then
      { e with hp := e.hp - dmg, isHit := true }
    else e)

/-- Blast damage to the player when standing on a blast tile. -/
def blastPlayer (blasts : List (Int × Int)) (dmg : Int) (p : Player) : Player :=
  if (p.x, p.y) ∈ blasts then { p with hp := p.hp - dmg } else p

/-- The whole bomb-detonation block: when nothing explodes, no blast tiles
are produced and nobody is damaged. -/
def blastPhase (m : List (List Tile)) (exploding : List Bomb)
    (es : List Enemy) (p : Player) :
    List (Int × Int) × List Enemy × Player :=
  if exploding.isEmpty then ([], es, p)
  else
    let blasts := allBlasts m exploding
    let dmg := 50 + p.bombDamageBonus
    (blasts, blastEnemies blasts dmg es, blastPlayer blasts dmg p)

/-- The `switch (itemAtPos.type)` of the pickup branch. -/
def itemPickup (lvl : Nat) (p : Player) (it : Item) : Player :=
  match it.type with
  | .potion =>
    if p.hp < p.maxHp then { p with hp := min p.maxHp (p.hp + 20) }
    else { p with potions := min 3 (p.potions + 1) }
  | .gold => { p with gold := p.gold + (5 + lvl) }
  | .arrows => { p with arrows := min p.maxArrows (p.arrows + 3) }
  | .bomb => { p with bombs := min p.maxBombs (p.bombs + 1) }
  | .antidote => { p with antidotes := min 3 (p.antidotes + 1) }

/-- The `switch (hazardAtPos.type)`: a pit forces hp to 0, spikes and fire
deal level-scaled damage. -/
def hazardApply (lvl : Nat) (p : Player) (hz : Hazard) : Player :=
  match hz.type with
  | .pit => { p with hp := 0 }
  | .spikes => { p with hp := p.hp - (5 + (lvl : Int)) }
  | .fire => { p with hp := p.hp - (8 + (lvl : Int)) }

/-- The interaction block of `processTurn`: wizard and exit tiles suppress
pickups and hazards; otherwise the first item at the tile is picked up
exactly once (keyed by the picked-up set), then the first hazard at the
tile is applied.  Returns the updated player and picked-up set. -/
def interactionPhase (s : GameState) (nx ny : Int) (p3 : Player) :
    Player × List (Int × Int) :=
  if s.wizard = some (nx, ny) then (p3, s.pickedUpItems)
  else if s.exit = some (nx, ny) then (p3, s.pickedUpItems)
  else
    let pick :=
      match s.items.find? (fun i => i.x == nx && i.y == ny) with
      | some it =>
        if (nx, ny) ∈ s.pickedUpItems then (p3, s.pickedUpItems)
        else (itemPickup s.level p3 it, s.pickedUpItems ++ [(nx, ny)])
      | none => (p3, s.pickedUpItems)
    match s.hazards.find? (fun hz => hz.x == nx && hz.y == ny) with
    | some hz => (hazardApply s.level pick.1 hz, pick.2)
    | none => pick

/-- The terminal check at the end of `processTurn`: on the transition from
positive to non-positive hp the hp is clamped to 0 (and the game-over flag
is raised). -/
def deathClamp (prevHp : Int) (p : Player) : Player :=
  if p.hp ≤ 0 ∧ 0 < prevHp then { p with hp := 0 } else p

/-- `processTurn(newPlayerPos)`: move the player, tick poison, tick and
detonate bombs, run the interaction block, clamp hp on death, clear the
enemies' `isHit` flags.  The deferred enemy turn / level transition and the
200 ms blast-clearing timeout are separate transitions. -/
def processTurn (s : GameState) (nx ny : Int) : GameState :=
  let p1 := { s.player with x := nx, y := ny }
  let p2 := poisonPhase p1
  let newBombs := tickBombs s.bombs
  let exploding := explodedBombs s.bombs
  let bl := blastPhase s.map exploding s.enemies p2
  let inter := interactionPhase s nx ny bl.2.2
  let p5 := deathClamp s.player.hp inter.1
  { s with player := p5, bombs := newBombs,
           enemies := bl.2.1.map (fun e => { e with isHit := false }),
           pickedUpItems := inter.2, activeBlasts := bl.1 }

/-- The two `Math.random()` draws of one enemy's turn: the axis tie-break
(`Math.random() > 0.5`) and `Math.floor(Math.random() * 3)`. -/
structure EnemyRng where
  tieMoveX : Bool
  dmgBonus : Nat
deriving DecidableEq, Repr

/-- Both entities' screen coordinates (`Math.floor(x / VIEWPORT_WIDTH)` and
`Math.floor(y / VIEWPORT_HEIGHT)`) must agree for the enemy to act. -/
def sameScreen (p : Player) (e : Enemy) : Bool :=
  Int.fdiv p.x VIEWPORT_WIDTH == Int.fdiv e.x VIEWPORT_WIDTH &&
  Int.fdiv p.y VIEWPORT_HEIGHT == Int.fdiv e.y VIEWPORT_HEIGHT

/-- The greedy chase destination: step along the axis with the larger
absolute delta toward the player's pre-turn position, random tie-break when
the deltas are equal and non-zero. -/
def enemyDest (p0 : Player) (rng : Nat → EnemyRng) (e : Enemy) : Int × Int :=
  let dx := p0.x - e.x
  let dy := p0.y - e.y
  if dy.natAbs < dx.natAbs then (e.x + dx.sign, e.y)
  else if dx.natAbs < dy.natAbs then (e.x, e.y + dy.sign)
  else if dx ≠ 0 then
    if (rng e.id).tieMoveX then (e.x + dx.sign, e.y) else (e.x, e.y + dy.sign)
  else (e.x, e.y)

/-- An attacking enemy's effect on the player: damage
`enemy.attack + corruptionBonus(0) + rand(0..2)` subtracted from hp, and a
spider inflicts poison (counter reset to 0) when the player is not already
poisoned. -/
def enemyAttackPlayer (rng : Nat → EnemyRng) (e : Enemy) (p : Player) : Player :=
  let corruptionBonus : Int := 0
  let dmg := e.attack + corruptionBonus + ((rng e.id).dmgBonus : Int)
  let p1 := { p with hp := p.hp - dmg }
  if e.type = EnemyType.spider ∧ p1.isPoisoned = false then
    { p1 with isPoisoned := true, poisonStepCounter := 0 }
  else p1

/-- The player-facing effect of one enemy's turn: dead or off-screen enemies
do nothing; an enemy whose destination is the player's pre-turn tile
attacks; a moving enemy leaves the player alone. -/
def enemyPlayerEffect (p0 : Player) (rng : Nat → EnemyRng) (e : Enemy)
    (p : Player) : Player :=
  if e.hp ≤ 0 then p
  else if sameScreen p0 e = false then p
  else if enemyDest p0 rng e = (p0.x, p0.y) then enemyAttackPlayer rng e p
  else p

/-- The enemy-list effect of one enemy's turn: the enemy moves to its
destination unless it attacked, the destination is a wall, or another
living enemy of the PRE-TURN snapshot occupies the destination. -/
def enemyMoveResult (m : List (List Tile)) (snapshot : List Enemy)
    (p0 : Player) (rng : Nat → EnemyRng) (e : Enemy) : Enemy :=
  if e.hp ≤ 0 then e
  else if sameScreen p0 e = false then e
  else
    let d := enemyDest p0 rng e
    if d = (p0.x, p0.y) then e
    else if tileAt m d.1 d.2 = some Tile.wall then e
    else if snapshot.any (fun e2 => e2.id != e.id && e2.x == d.1 && e2.y == d.2 && decide (0 < e2.hp)) then e
    else { e with x := d.1, y := d.2 }

/-- One iteration of the `enemies.map` body of `processEnemyTurn`: the
accumulated player is updated and the enemy's successor is appended. -/
def enemyTurnStep (m : List (List Tile)) (snapshot : List Enemy) (p0 : Player)
    (rng : Nat → EnemyRng) (st : Player × List Enemy) (e : Enemy) :
    Player × List Enemy :=
  (enemyPlayerEffect p0 rng e st.1, st.2 ++ [enemyMoveResult m snapshot p0 rng e])

/-- `processEnemyTurn`: every enemy decides against the pre-turn snapshot
(`player` and `enemies` of the input state); the hp is NOT clamped here —
the game-over flag is raised on the positive-to-non-positive transition but
the (possibly negative) hp is stored as computed. -/
def processEnemyTurn (s : GameState) (rng : Nat → EnemyRng) : GameState :=
  let r := s.enemies.foldl (enemyTurnStep s.map s.enemies s.player rng) (s.player, [])
  { s with player := r.1, enemies := r.2 }

/-- `handleUseAntidote`: requires an antidote and active poison; decrements
the antidote count and clears `isPoisoned` — the poison step counter is NOT
touched in this evolution stage. -/
def handleUseAntidote (s : GameState) : GameState :=
  if s.player.antidotes ≤ 0 ∨ s.player.isPoisoned = false then s
  else { s with player := { s.player with
                  antidotes := s.player.antidotes - 1
                  isPoisoned := false } }

/-- `handleDropBomb`: requires a bomb in inventory; placement is rejected
when any armed bomb already sits on the player's own tile; otherwise one
bomb with fuse `BOMB_FUSE_STEPS` is appended (`newId` stands for the
`Date.now()` identifier). -/
def handleDropBomb (s : GameState) (newId : Nat) : GameState :=
  if s.player.bombs ≤ 0 then s
  else if s.bombs.any (fun b => b.x == s.player.x && b.y == s.player.y) then s
  else
    { s with player := { s.player with bombs := s.player.bombs - 1 },
             bombs := s.bombs ++ [{ x := s.player.x, y := s.player.y,
                                    stepsRemaining := BOMB_FUSE_STEPS, id := newId }] }

/-- The two `Math.random()` draws of the melee branch of `handleMove`:
`Math.floor(Math.random() * 5)` on the player's hit and
`Math.floor(Math.random() * 3)` on the retaliation. -/
structure MeleeRng where
  playerBonus : Nat
  retaliateBonus : Nat
deriving DecidableEq, Repr

/-- `handleMove`: records the attempted direction first (this happens even
when the move is then rejected), bumps on walls, handles screen crossing
(the post-transition state), resolves melee against a living enemy on the
target tile, and otherwise commits the move through `processTurn`.  The
melee branch rebuilds the player from the pre-call closure, so its result
keeps the OLD `lastMoveDirection`; the deferred `isHit`-clearing timeout
and enemy turn are separate transitions. -/
def handleMove (s : GameState) (d : Direction) (rng : MeleeRng) : GameState :=
  let s1 := { s with player := { s.player with lastMoveDirection := some d } }
  let n := stepPos s.player.x s.player.y d
  if tileAt s.map n.1 n.2 = some Tile.wall then s1
  else
    let nextScreen := (Int.fdiv n.1 VIEWPORT_WIDTH, Int.fdiv n.2 VIEWPORT_HEIGHT)
    if nextScreen ≠ s.camera then
      if 0 ≤ nextScreen.1 ∧ nextScreen.1 < WORLD_SCREENS_W ∧
         0 ≤ nextScreen.2 ∧ nextScreen.2 < WORLD_SCREENS_H then
        { s1 with player := { s1.player with x := n.1, y := n.2 }, camera := nextScreen }
      else s1
    else
      match s.enemies.find? (fun e => e.x == n.1 && e.y == n.2 && decide (0 < e.hp)) with
      | some ea =>
        let pDmg := s.player.attack + s.player.meleeDamageBonus + (rng.playerBonus : Int)
        let newEnemyHp := ea.hp - pDmg
        let idx := s.enemies.findIdx (fun e => e.id == ea.id)
        let newEnemies := s.enemies.set idx { ea with hp := newEnemyHp, isHit := true }
        let p1 :=
          if 0 < newEnemyHp then
            { s.player with hp := s.player.hp - (ea.attack + (rng.retaliateBonus : Int)) }
          else s.player
        let p2 := if p1.hp ≤ 0 then { p1 with hp := 0 } else p1
        { s1 with player := p2, enemies := newEnemies }
      | none => processTurn s1 n.1 n.2

/-- `Math.floor((attack + arrowDamageBonus) * 0.8) + Math.floor(Math.random()*4)`.
For the integer operands the engine produces, the double-precision product
`n * 0.8` floors to `⌊4n/5⌋`, written with flooring integer division. -/
def arrowDamage (p : Player) (r : Nat) : Int :=
  Int.fdiv (4 * (p.attack + p.arrowDamageBonus)) 5 + (r : Int)

/-- One `moveArrow` step: advance one tile in the aimed direction; a wall
tile destroys the projectile with no effect; a living enemy takes arrow
damage (`isHit` set) and destroys the projectile — arrows never pierce;
otherwise the projectile keeps flying.  Returns the projectile (`none` once
destroyed) and the updated state. -/
def moveArrowStep (s : GameState) (d : Direction) (r : Nat) (pos : Int × Int) :
    Option (Int × Int) × GameState :=
  let q := stepPos pos.1 pos.2 d
  if tileAt s.map q.1 q.2 = some Tile.wall then (none, s)
  else
    match s.enemies.findIdx? (fun e => e.x == q.1 && e.y == q.2 && decide (0 < e.hp)) with
    | some i =>
      let dmg := arrowDamage s.player r
      (none,
        { s with enemies :=
            match s.enemies.get? i with
            | some eh => s.enemies.set i { eh with hp := eh.hp - dmg, isHit := true }
            | none => s.enemies })
    | none => (some q, s)

/-- The projectile position process of `moveArrow` against a fixed map and
enemy list: `none` once the projectile has been destroyed (wall tile or
living enemy).  A tile outside the map is neither, so the projectile keeps
flying there. -/
def arrowFlyStep (m : List (List Tile)) (es : List Enemy) (d : Direction)
    (pos : Int × Int) : Option (Int × Int) :=
  let q := stepPos pos.1 pos.2 d
  if tileAt m q.1 q.2 = some Tile.wall then none
  else if es.any (fun e => e.x == q.1 && e.y == q.2 && decide (0 < e.hp)) then none
  else some q

/-- The projectile position after `n` steps of `moveArrow` (`none` once
destroyed; destruction is absorbing). -/
def arrowFly (m : List (List Tile)) (es : List Enemy) (d : Direction)
    (start : Int × Int) : Nat → Option (Int × Int)
  | 0 => some start
  | n + 1 => (arrowFly m es d start n).bind (arrowFlyStep m es d)

/-- The `moveArrow` loop eventually destroys its projectile. -/
def arrowStops (m : List (List Tile)) (es : List Enemy) (d : Direction)
    (start : Int × Int) : Prop :=
  ∃ n, arrowFly m es d start n = none

end V0

/-! ## V1 : the second evolution stage (its own constants file) -/

namespace V1

def BOMB_FUSE_STEPS : Int := 4
def BOMB_RANGE : Nat := 2
def POISON_TICK_STEPS : Nat := 3
def POISON_DAMAGE : Int := 5

/-- Data this stage reads from repository files that are not under `src/`
(`data/enemies`, `data/altars`, `data/systems`), plus its per-enemy random
draw.  Modelled from the spec: enemy types carry a "can poison" capability
flag; an altar rolls a random effect from a fixed table and applies it to
the player (corruption capped at 100); the viewport is a fixed-size
rectangle.  All are passed in as parameters because their data tables are
outside `src/`. -/
structure Cfg where
  canPoison : EnemyType → Bool
  poisonRoll : Nat → Bool
  altarApply : Player → Player
  viewportW : Int
  viewportH : Int

/-- `processAugmentEffects`: the CORRUPTED_BLOOD augment drains 1 maxHp
every 25th step (hp capped to the new maximum). -/
def processAugmentEffects (p : Player) : Player :=
  if p.activeAugments.contains ("CORRUPTED_BLOOD") &&
     p.stepsTaken % 25 == 0 && decide (0 < p.stepsTaken) then
    let m := max 1 (p.maxHp - 1)
    { p with maxHp := m, hp := min p.hp m }
  else p

/-- `useAntidote`: requires an antidote and active poison; clears
`isPoisoned`, resets the poison step counter to 0 and decrements the
antidote count. -/
def useAntidote (s : GameState) : GameState :=
  if 0 < s.player.antidotes ∧ s.player.isPoisoned = true then
    { s with player := { s.player with
        isPoisoned := false
        poisonStepCounter := 0
        antidotes := s.player.antidotes - 1 } }
  else s

/-- `placeBomb`: requires a bomb in inventory and nothing else — there is NO
check against an armed bomb already sitting on the player's tile in this
stage.  One bomb with fuse `BOMB_FUSE_STEPS` is appended (`newId` stands
for the `Date.now()` identifier). -/
def placeBomb (s : GameState) (newId : Nat) : GameState :=
  if 0 < s.player.bombs then
    { s with
        player := { s.player with bombs := s.player.bombs - 1 }
        bombs := s.bombs ++ [{ id := newId, x := s.player.x, y := s.player.y,
                               stepsRemaining := BOMB_FUSE_STEPS }] }
  else s

/-- The Euclidean blast square of one detonating bomb: every in-bounds tile
with `sqrt(dx² + dy²) <= BOMB_RANGE`, which for these integer offsets is
exactly `dx² + dy² <= BOMB_RANGE²`; bounds use row 0's width for every
row.  Duplicate tiles are pushed as-is. -/
def blastSquare (m : List (List Tile)) (b : Bomb) : List (Int × Int) :=
  let w : Int := ((m.head?.getD []).length : Int)
  let hgt : Int := (m.length : Int)
  (List.range (2 * BOMB_RANGE + 1)).foldl (fun acc dyi =>
    let y := b.y - (BOMB_RANGE : Int) + (dyi : Int)
    (List.range (2 * BOMB_RANGE + 1)).foldl (fun acc2 dxi =>
      let x := b.x - (BOMB_RANGE : Int) + (dxi : Int)
      if 0 ≤ x ∧ x < w ∧ 0 ≤ y ∧ y < hgt ∧
         (x - b.x) * (x - b.x) + (y - b.y) * (y - b.y) ≤ (BOMB_RANGE : Int) * (BOMB_RANGE : Int)
      then acc2 ++ [(x, y)] else acc2) acc) []

/-- The bomb loop of this stage's `processTurn`: each bomb's fuse is
decremented; a bomb whose decremented fuse is still positive survives,
otherwise it detonates and contributes its blast square. -/
def tickBombsBlasts (m : List (List Tile)) (bs : List Bomb) :
    List Bomb × List (Int × Int) :=
  bs.foldl (fun acc b =>
    let ns := b.stepsRemaining - 1
    if 0 < ns then (acc.1 ++ [{ b with stepsRemaining := ns }], acc.2)
    else (acc.1, acc.2 ++ blastSquare m b)) ([], [])

/-- This stage's poison tick (identical thresholds, inlined in
`processTurn`). -/
def poisonPhase (p : Player) : Player :=
  if p.isPoisoned then
    let c := p.poisonStepCounter + 1
    if POISON_TICK_STEPS ≤ c then
      { p with hp := p.hp - POISON_DAMAGE, poisonStepCounter := 0 }
    else { p with poisonStepCounter := c }
  else p

/-- The body of this stage's `forEach` enemy loop at index `i`: the
decision reads the CURRENT (partially updated) enemy array, so an enemy
moved earlier in the same turn frees its old tile and blocks its new one
for the enemies processed after it.  An enemy whose greedy destination is
the player's tile attacks for `max(1, attack)` and may poison; otherwise
it moves when the destination is a floor tile not occupied by ANY entry of
the current array (dead or alive, no id exclusion). -/
def enemyLoopBody (m : List (List Tile)) (cfg : Cfg)
    (st : Player × List Enemy) (i : Nat) : Player × List Enemy :=
  match st.2.get? i with
  | none => st
  | some e =>
    let p := st.1
    let dx := p.x - e.x
    let dy := p.y - e.y
    let n := if dy.natAbs < dx.natAbs then (e.x + dx.sign, e.y) else (e.x, e.y + dy.sign)
    if n = (p.x, p.y) then
      let dmg := max 1 e.attack
      let p1 := { p with hp := p.hp - dmg }
      let p2 :=
        if cfg.canPoison e.type && cfg.poisonRoll e.id then
          { p1 with isPoisoned := true }
        else p1
      (p2, st.2)
    else if tileAt m n.1 n.2 = some Tile.floor ∧
            st.2.any (fun e2 => e2.x == n.1 && e2.y == n.2) = false then
      (p, st.2.set i { e with x := n.1, y := n.2 })
    else (p, st.2)

/-- Runs the enemy loop from index `i` with `fuel` indices left. -/
def enemyLoopGo (m : List (List Tile)) (cfg : Cfg) :
    Nat → Nat → Player × List Enemy → Player × List Enemy
  | 0, _, st => st
  | fuel + 1, i, st => enemyLoopGo m cfg fuel (i + 1) (enemyLoopBody m cfg st i)

/-- This stage's `processEnemyTurn`: the in-place `forEach` loop over the
enemy array.  As in the other stage the hp is not clamped on depletion
(only the game-over flag is raised). -/
def processEnemyTurn (cfg : Cfg) (s : GameState) : GameState :=
  let r := enemyLoopGo s.map cfg s.enemies.length 0 (s.player, s.enemies)
  { s with player := r.1, enemies := r.2 }

/-- This stage's `processTurn`: move (stepsTaken incremented), augment
effects, bomb ticking with Euclidean blasts (a blast REMOVES every enemy
standing in it regardless of hp; the queued `handleEnemyDefeated` updater
is overwritten by the whole-state write that follows, so its xp effects
never reach the committed state), blast damage to the player, poison tick,
then the enemy turn. -/
def processTurn (cfg : Cfg) (s : GameState) (nx ny : Int) : GameState :=
  let p0 := { s.player with x := nx, y := ny, stepsTaken := s.player.stepsTaken + 1 }
  let p1 := processAugmentEffects p0
  let tb := tickBombsBlasts s.map s.bombs
  let st2 :=
    if tb.2.isEmpty then (s.enemies, p1)
    else
      let dmg := 20 + p1.bombDamageBonus
      ((s.enemies.filter (fun e => decide ((e.x, e.y) ∉ tb.2))),
       if (p1.x, p1.y) ∈ tb.2 then { p1 with hp := p1.hp - dmg } else p1)
  let p3 := poisonPhase st2.2
  processEnemyTurn cfg
    { s with player := p3, enemies := st2.1, bombs := tb.1, activeBlasts := tb.2 }

/-- This stage's `handleMove`.  A wall rejects the move before any state
write.  An enemy on the target tile (no hp check) resolves melee with
damage `attack + meleeDamageBonus` and a full `processTurn` at the
standing position; on a kill the post-turn enemy list is filtered by id,
otherwise the PRE-turn enemy list with the updated hp replaces the
post-turn one.  An ordinary move runs `processTurn` at the target, records
the aim direction, picks up the first not-yet-collected item at the tile
(gold is a flat 10 here), applies an altar effect, and updates the camera;
stepping onto the exit discards the computed state (the level transition
rebuilds it). -/
def handleMove (cfg : Cfg) (s : GameState) (d : Direction) : GameState :=
  let n := stepPos s.player.x s.player.y d
  if tileAt s.map n.1 n.2 = some Tile.wall then s
  else
    match s.enemies.find? (fun e => e.x == n.1 && e.y == n.2) with
    | some ea =>
      let dmg := s.player.attack + s.player.meleeDamageBonus
      let newHp := ea.hp - dmg
      let ns := processTurn cfg s s.player.x s.player.y
      if newHp ≤ 0 then
        { ns with enemies := ns.enemies.filter (fun e => e.id != ea.id) }
      else
        { ns with enemies := s.enemies.map (fun e =>
            if e.id == ea.id then { e with hp := newHp, isHit := true } else e) }
    | none =>
      let ns0 := processTurn cfg s n.1 n.2
      let ns1 := { ns0 with player := { ns0.player with lastMoveDirection := some d } }
      let ns2 :=
        match ns1.items.find? (fun i => i.x == n.1 && i.y == n.2) with
        | some it =>
          if (n.1, n.2) ∈ ns1.pickedUpItems then ns1
          else
            let p := ns1.player
            let p2 :=
              match it.type with
              | .gold => { p with gold := p.gold + 10 }
              | .potion => { p with potions := min 3 (p.potions + 1) }
              | .arrows => { p with arrows := min p.maxArrows (p.arrows + 3) }
              | .bomb => { p with bombs := min p.maxBombs (p.bombs + 1) }
              | .antidote => { p with antidotes := min 3 (p.antidotes + 1) }
            { ns1 with player := p2, pickedUpItems := ns1.pickedUpItems ++ [(n.1, n.2)] }
        | none => ns1
      let ns3 :=
        if ns2.altars.any (fun a => a.1 == n.1 && a.2 == n.2) then
          { ns2 with player := cfg.altarApply ns2.player }
        else ns2
      if ns3.exit = some (n.1, n.2) then s
      else { ns3 with camera := (Int.fdiv n.1 cfg.viewportW, Int.fdiv n.2 cfg.viewportH) }

/-- `10 + player.arrowDamageBonus`: this stage's arrow damage is a flat
base plus the bonus — it does not involve `player.attack` and has no
random component. -/
def arrowDamage (p : Player) : Int := 10 + p.arrowDamageBonus

/-- One tick of this stage's projectile interval: advance one tile; any
tile that is not a floor tile (walls AND positions outside the map)
destroys the projectile; an enemy on the tile (no hp check) takes
`arrowDamage` — dying enemies are filtered out, surviving ones keep the
reduced hp — and destroys the projectile.  (The interval then runs a
`processTurn` computed from the pre-damage snapshot whose whole-state
write overwrites this update; that lost-update quirk is a separate
transition and not part of this function.) -/
def arrowTick (s : GameState) (pos : Int × Int) (d : Direction) :
    Option (Int × Int) × GameState :=
  let q := stepPos pos.1 pos.2 d
  if tileAt s.map q.1 q.2 ≠ some Tile.floor then (none, s)
  else
    match s.enemies.find? (fun e => e.x == q.1 && e.y == q.2) with
    | some eh =>
      let newHp := eh.hp - arrowDamage s.player
      (none,
        { s with enemies :=
            if newHp ≤ 0 then s.enemies.filter (fun e => e.id != eh.id)
            else s.enemies.map (fun e =>
              if e.id == eh.id then { e with hp := newHp } else e) })
    | none => (some q, s)

/-- The projectile position process of this stage: `none` once destroyed
(non-floor tile — including out of bounds — or any enemy). -/
def arrowFlyStep (m : List (List Tile)) (es : List Enemy) (d : Direction)
    (pos : Int × Int) : Option (Int × Int) :=
  let q := stepPos pos.1 pos.2 d
  if tileAt m q.1 q.2 ≠ some Tile.floor then none
  else if es.any (fun e => e.x == q.1 && e.y == q.2) then none
  else some q

/-- The projectile position after `n` interval ticks (`none` once
destroyed; destruction is absorbing). -/
def arrowFly (m : List (List Tile)) (es : List Enemy) (d : Direction)
    (start : Int × Int) : Nat → Option (Int × Int)
  | 0 => some start
  | n + 1 => (arrowFly m es d start n).bind (arrowFlyStep m es d)

/-- This stage's projectile loop eventually destroys its projectile. -/
def arrowStops (m : List (List Tile)) (es : List Enemy) (d : Direction)
    (start : Int × Int) : Prop :=
  ∃ n, arrowFly m es d start n = none

end V1

/-! ## Iteration and direction helpers used to state the bomb-fuse and
projectile-termination claims -/

/-- The bomb list after `n` resolved player turns of the `V0` stage
(each turn applies the decrement-and-keep-positive tick of
`processTurn`). -/
def survivorsAfter (bs : List Bomb) : Nat → List Bomb
  | 0 => bs
  | n + 1 => V0.tickBombs (survivorsAfter bs n)

/-- The bombs that detonate on the `n`-th resolved turn (none detonate
before the first turn). -/
def explodedAt (bs : List Bomb) : Nat → List Bomb
  | 0 => []
  | n + 1 => V0.explodedBombs (survivorsAfter bs n)

/-- Horizontal component of a direction's unit step. -/
def dirDx : Direction → Int
  | .left => -1
  | .right => 1
  | _ => 0

/-- Vertical component of a direction's unit step. -/
def dirDy : Direction → Int
  | .up => -1
  | .down => 1
  | _ => 0

/-- The longest row length of a map, used to bound a rightward flight. -/
def maxRowLen : List (List Tile) → Nat
  | [] => 0
  | r :: t => max r.length (maxRowLen t)

/-! ## Concrete fixtures used by the evaluation theorems -/

/-- A plain player for concrete scenarios. -/
def basePlayer : Player :=
  { x := 1, y := 1, hp := 100, maxHp := 100, attack := 10,
    arrows := 3, maxArrows := 9, bombs := 2, maxBombs := 5, potions := 1, antidotes := 1,
    gold := 0, level := 1, xp := 0, xpToNextLevel := 100,
    playerClass := .knight, lastMoveDirection := none,
    isPoisoned := false, poisonStepCounter := 0,
    meleeDamageBonus := 0, arrowDamageBonus := 0, bombDamageBonus := 0,
    corruption := 0, activeAugments := [], stepsTaken := 0 }

/-- A state skeleton over a given map and player. -/
def baseState (m : List (List Tile)) (p : Player) : GameState :=
  { map := m, player := p, enemies := [], items := [], exit := none, wizard := none,
    hazards := [], bombs := [], activeBlasts := [], pickedUpItems := [],
    level := 1, camera := (0, 0), altars := [] }

/-- A 3×3 all-floor map. -/
def openMap3 : List (List Tile) :=
  [[.floor, .floor, .floor], [.floor, .floor, .floor], [.floor, .floor, .floor]]

/-- A single all-floor row of four tiles. -/
def rowMap4 : List (List Tile) := [[.floor, .floor, .floor, .floor]]

/-- The pre-death player of the C1 scenario: a levelled-up Knight. -/
def c1Pre : Player :=
  { basePlayer with
      gold := 100
      maxHp := 200
      hp := 150
      attack := 50
      level := 4
      xp := 77
      corruption := 30 }

/-- A poisoned player holding one antidote, mid-way to the next tick. -/
def c3State : GameState :=
  baseState openMap3
    { basePlayer with
        isPoisoned := true
        poisonStepCounter := 2
        antidotes := 1 }

/-- An adjacent goblin about to strike a player at 1 hp. -/
def c2Enemy : Enemy :=
  { id := 1, type := .goblin, x := 1, y := 0, hp := 5, attack := 5, isHit := false }

def c2State : GameState :=
  { baseState rowMap4 { basePlayer with x := 0, y := 0, hp := 1 } with enemies := [c2Enemy] }

def c2Rng : Nat → V0.EnemyRng := fun _ => { tieMoveX := true, dmgBonus := 0 }

/-- A state holding one armed bomb on the player's own tile and one bomb
in inventory. -/
def c6State : GameState :=
  { baseState openMap3 { basePlayer with bombs := 1 } with
      bombs := [{ x := 1, y := 1, stepsRemaining := 2, id := 5 }] }

/-- A map whose tile left of the player is a wall. -/
def wallMap3 : List (List Tile) :=
  [[.wall, .wall, .wall], [.wall, .floor, .floor], [.wall, .floor, .floor]]

/-- A player aiming up who is about to bump into the wall on their left. -/
def c8State : GameState :=
  baseState wallMap3 { basePlayer with lastMoveDirection := some Direction.up }

/-- A plain configuration for the second stage's external data tables. -/
def defaultCfg : V1.Cfg :=
  { canPoison := fun _ => false, poisonRoll := fun _ => false,
    altarApply := id, viewportW := 13, viewportH := 20 }

/-- A dungeon-level-3 state with an uncollected gold item one tile right of
the player. -/
def c4State : GameState :=
  { baseState openMap3 basePlayer with
      items := [{ type := .gold, x := 2, y := 1 }]
      level := 3 }

/-- An enemy in the arrow's line of fire with plenty of hp. -/
def c9Enemy : Enemy :=
  { id := 3, type := .goblin, x := 0, y := 1, hp := 1000, attack := 2, isHit := false }

/-- A three-tile column with a strong archer at the bottom and `c9Enemy`
in the middle. -/
def c9State : GameState :=
  { baseState [[Tile.floor], [Tile.floor], [Tile.floor]]
      { basePlayer with x := 0, y := 2, attack := 100, arrowDamageBonus := 0 } with
      enemies := [c9Enemy] }

/-- A bomb with the `V0` fuse of six turns. -/
def bombW : Bomb := { x := 0, y := 0, stepsRemaining := 6, id := 0 }

/-- Two chasing enemies in one corridor; processing order decides whether
the rear one can advance. -/
def c5A : Enemy :=
  { id := 1, type := .goblin, x := 2, y := 0, hp := 5, attack := 3, isHit := false }

def c5B : Enemy :=
  { id := 2, type := .goblin, x := 3, y := 0, hp := 5, attack := 3, isHit := false }

def c5State : GameState :=
  { baseState rowMap4 { basePlayer with x := 0, y := 0 } with enemies := [c5A, c5B] }

/-! ## Claim C1 -/

/-- C1.  The claim says the restart flow halves gold and retains maxHp and
attack.  The code contradicts its own inline comments: `...classDefaults`
is spread AFTER the retained `maxHp`, `attack` and halved `gold`, so those
three are overwritten by the class's starting values.  Evaluated on a dead
Knight with 100 gold, 200 maxHp, 50 attack: gold comes back as 0 (the
Knight class default) instead of 50, maxHp as 120 instead of 200 and
attack as 12 instead of 50, while level, class, corruption, augments and
the xp reset behave as claimed. -/
theorem c1_restart_clobbers_retained_stats :
    (V0.restartPlayer c1Pre basePlayer).gold = 0 ∧
    c1Pre.gold / 2 = 50 ∧
    (V0.restartPlayer c1Pre basePlayer).maxHp = 120 ∧ c1Pre.maxHp = 200 ∧
    (V0.restartPlayer c1Pre basePlayer).attack = 12 ∧ c1Pre.attack = 50 ∧
    (V0.restartPlayer c1Pre basePlayer).xp = 0 ∧
    (V0.restartPlayer c1Pre basePlayer).level = 4 ∧
    (V0.restartPlayer c1Pre basePlayer).corruption = 30 ∧
    (V0.restartPlayer c1Pre basePlayer).playerClass = PlayerClass.knight := by
  decide

/-! ## Claim C3 -/

/-- C3, counterexample.  In the `V0` stage, using an antidote while
poisoned with step counter 2 leaves the counter at 2 — the claim's
"resets the poison step counter to 0 immediately" is false there. -/
theorem c3_counterexample :
    (V0.handleUseAntidote c3State).player.antidotes = 0 ∧
    (V0.handleUseAntidote c3State).player.isPoisoned = false ∧
    (V0.handleUseAntidote c3State).player.poisonStepCounter = 2 := by
  decide

/-- C3, amended.  In every state where the player is poisoned and holds an
antidote: both stages decrement the antidote count and clear `isPoisoned`;
the `V1` stage also resets the poison step counter to 0 while the `V0`
stage leaves the counter unchanged; in both stages the poison-tick phase
is the identity on the cured player, so no further poison tick damage can
occur from the cured poisoning. -/
theorem c3_antidote_cures (s : GameState)
    (h1 : s.player.isPoisoned = true) (h2 : 1 ≤ s.player.antidotes) :
    (V0.handleUseAntidote s).player.antidotes = s.player.antidotes - 1 ∧
    (V0.handleUseAntidote s).player.isPoisoned = false ∧
    (V0.handleUseAntidote s).player.poisonStepCounter = s.player.poisonStepCounter ∧
    V0.poisonPhase (V0.handleUseAntidote s).player = (V0.handleUseAntidote s).player ∧
    (V1.useAntidote s).player.antidotes = s.player.antidotes - 1 ∧
    (V1.useAntidote s).player.isPoisoned = false ∧
    (V1.useAntidote s).player.poisonStepCounter = 0 ∧
    V1.poisonPhase (V1.useAntidote s).player = (V1.useAntidote s).player := by
  unfold V0.handleUseAntidote V1.useAntidote
  have hne : ¬ (s.player.antidotes ≤ 0 ∨ s.player.isPoisoned = false) := by
    push_neg
    exact ⟨by omega, by simp [h1]⟩
  rw [if_neg hne, if_pos ⟨by omega, h1⟩]
  simp [V0.poisonPhase, V1.poisonPhase]

/-- C3, witness for `c3_antidote_cures`. -/
theorem c3_antidote_cures_witness :
    (V0.handleUseAntidote c3State).player.isPoisoned = false ∧
    (V1.useAntidote c3State).player.poisonStepCounter = 0 := by
  have h := c3_antidote_cures c3State (by decide) (by decide)
  exact ⟨h.2.1, h.2.2.2.2.2.2.1⟩

/-! ## Claim C2 : helper lemmas about the hp bounds of each phase -/

theorem poisonPhase_hp_le (p : Player) : (V0.poisonPhase p).hp ≤ p.hp := by
  simp only [V0.poisonPhase, V0.POISON_DAMAGE, V0.POISON_TICK_STEPS]
  split_ifs <;> simp <;> omega

theorem poisonPhase_maxHp (p : Player) : (V0.poisonPhase p).maxHp = p.maxHp := by
  simp only [V0.poisonPhase]
  split_ifs <;> rfl

theorem poisonPhase_bombDamageBonus (p : Player) :
    (V0.poisonPhase p).bombDamageBonus = p.bombDamageBonus := by
  simp only [V0.poisonPhase]
  split_ifs <;> rfl

theorem poisonPhase_gold (p : Player) : (V0.poisonPhase p).gold = p.gold := by
  simp only [V0.poisonPhase]
  split_ifs <;> rfl

theorem blastPhase_player_hp_le (m : List (List Tile)) (ex : List Bomb)
    (es : List Enemy) (p : Player) (h : 0 ≤ 50 + p.bombDamageBonus) :
    (V0.blastPhase m ex es p).2.2.hp ≤ p.hp := by
  simp only [V0.blastPhase, V0.blastPlayer]
  split_ifs <;> simp <;> omega

theorem blastPhase_player_maxHp (m : List (List Tile)) (ex : List Bomb)
    (es : List Enemy) (p : Player) :
    (V0.blastPhase m ex es p).2.2.maxHp = p.maxHp := by
  simp only [V0.blastPhase, V0.blastPlayer]
  split_ifs <;> rfl

theorem blastPhase_player_gold (m : List (List Tile)) (ex : List Bomb)
    (es : List Enemy) (p : Player) :
    (V0.blastPhase m ex es p).2.2.gold = p.gold := by
  simp only [V0.blastPhase, V0.blastPlayer]
  split_ifs <;> rfl

theorem itemPickup_maxHp (lvl : Nat) (p : Player) (it : Item) :
    (V0.itemPickup lvl p it).maxHp = p.maxHp := by
  cases hit : it.type <;> simp only [V0.itemPickup, hit] <;>
    first
    | rfl
    | (split_ifs <;> rfl)

theorem itemPickup_hp_le (lvl : Nat) (p : Player) (it : Item)
    (h : p.hp ≤ p.maxHp) : (V0.itemPickup lvl p it).hp ≤ p.maxHp := by
  cases hit : it.type <;> simp only [V0.itemPickup, hit] <;>
    first
    | exact h
    | (split_ifs <;> simp <;> omega)

theorem itemPickup_gold_of_ne (lvl : Nat) (p : Player) (it : Item)
    (h : it.type ≠ ItemType.gold) : (V0.itemPickup lvl p it).gold = p.gold := by
  cases hit : it.type <;> simp only [V0.itemPickup, hit] <;>
    first
    | rfl
    | exact absurd hit h
    | (split_ifs <;> rfl)

theorem hazardApply_maxHp (lvl : Nat) (p : Player) (hz : Hazard) :
    (V0.hazardApply lvl p hz).maxHp = p.maxHp := by
  cases hhz : hz.type <;> simp [V0.hazardApply, hhz]

theorem hazardApply_hp_le (lvl : Nat) (p : Player) (hz : Hazard)
    (h : p.hp ≤ p.maxHp) (h0 : 0 ≤ p.maxHp) :
    (V0.hazardApply lvl p hz).hp ≤ p.maxHp := by
  cases hhz : hz.type <;> simp only [V0.hazardApply, hhz] <;>
    first
    | omega
    | (simp
       omega)

theorem hazardApply_gold (lvl : Nat) (p : Player) (hz : Hazard) :
    (V0.hazardApply lvl p hz).gold = p.gold := by
  cases hhz : hz.type <;> simp [V0.hazardApply, hhz]

theorem interactionPhase_maxHp (s : GameState) (nx ny : Int) (p : Player) :
    (V0.interactionPhase s nx ny p).1.maxHp = p.maxHp := by
  unfold V0.interactionPhase
  rcases hi : s.items.find? (fun i => i.x == nx && i.y == ny) with _ | it <;>
    rcases hh : s.hazards.find? (fun hz => hz.x == nx && hz.y == ny) with _ | hz <;>
    simp only [hi, hh] <;> split_ifs <;>
    simp [hazardApply_maxHp, itemPickup_maxHp]

theorem interactionPhase_hp_le (s : GameState) (nx ny : Int) (p : Player)
    (h : p.hp ≤ p.maxHp) (h0 : 0 ≤ p.maxHp) :
    (V0.interactionPhase s nx ny p).1.hp ≤ p.maxHp := by
  unfold V0.interactionPhase
  rcases hi : s.items.find? (fun i => i.x == nx && i.y == ny) with _ | it <;>
    rcases hh : s.hazards.find? (fun hz => hz.x == nx && hz.y == ny) with _ | hz <;>
    simp only [hi, hh] <;> split_ifs <;> dsimp only <;>
    first
    | exact h
    | exact itemPickup_hp_le s.level p it h
    | exact hazardApply_hp_le s.level p hz h h0
    | (have h1 := itemPickup_hp_le s.level p it h
       have h2 := itemPickup_maxHp s.level p it
       have h3 := hazardApply_hp_le s.level (V0.itemPickup s.level p it) hz
         (by omega) (by omega)
       have h4 := hazardApply_maxHp s.level (V0.itemPickup s.level p it) hz
       omega)

theorem deathClamp_hp_bounds (prevHp : Int) (p : Player)
    (hprev : 0 < prevHp) (h : p.hp ≤ p.maxHp) (h0 : 0 ≤ p.maxHp) :
    0 ≤ (V0.deathClamp prevHp p).hp ∧
      (V0.deathClamp prevHp p).hp ≤ (V0.deathClamp prevHp p).maxHp := by
  unfold V0.deathClamp
  split_ifs with hc
  · simpa using h0
  · have h5 : 0 < p.hp := by
      rcases lt_or_le 0 p.hp with h5 | h5
      · exact h5
      · exact absurd ⟨h5, hprev⟩ hc
    exact ⟨le_of_lt h5, h⟩

theorem processTurn_player_eq (s : GameState) (nx ny : Int) :
    (V0.processTurn s nx ny).player =
      V0.deathClamp s.player.hp
        (V0.interactionPhase s nx ny
          (V0.blastPhase s.map (V0.explodedBombs s.bombs) s.enemies
            (V0.poisonPhase { s.player with x := nx, y := ny })).2.2).1 := rfl

theorem foldl_enemyTurnStep (m : List (List Tile)) (snap : List Enemy)
    (p0 : Player) (rng : Nat → V0.EnemyRng) (es : List Enemy)
    (p : Player) (acc : List Enemy) :
    es.foldl (V0.enemyTurnStep m snap p0 rng) (p, acc) =
      (es.foldl (fun q e => V0.enemyPlayerEffect p0 rng e q) p,
       acc ++ es.map (V0.enemyMoveResult m snap p0 rng)) := by
  induction es generalizing p acc with
  | nil => simp
  | cons e es ih =>
    simp only [List.foldl_cons, List.map_cons]
    rw [V0.enemyTurnStep, ih]
    simp

theorem processEnemyTurn_player (s : GameState) (rng : Nat → V0.EnemyRng) :
    (V0.processEnemyTurn s rng).player =
      s.enemies.foldl (fun q e => V0.enemyPlayerEffect s.player rng e q) s.player := by
  unfold V0.processEnemyTurn
  rw [foldl_enemyTurnStep]

theorem processEnemyTurn_enemies (s : GameState) (rng : Nat → V0.EnemyRng) :
    (V0.processEnemyTurn s rng).enemies =
      s.enemies.map (V0.enemyMoveResult s.map s.enemies s.player rng) := by
  unfold V0.processEnemyTurn
  rw [foldl_enemyTurnStep]
  simp

theorem enemyPlayerEffect_maxHp (p0 : Player) (rng : Nat → V0.EnemyRng)
    (e : Enemy) (p : Player) :
    (V0.enemyPlayerEffect p0 rng e p).maxHp = p.maxHp := by
  simp only [V0.enemyPlayerEffect, V0.enemyAttackPlayer]
  split_ifs <;> rfl

theorem enemyPlayerEffect_hp_le (p0 : Player) (rng : Nat → V0.EnemyRng)
    (e : Enemy) (p : Player) (h : 0 ≤ e.attack) :
    (V0.enemyPlayerEffect p0 rng e p).hp ≤ p.hp := by
  simp only [V0.enemyPlayerEffect, V0.enemyAttackPlayer]
  split_ifs <;> simp <;> omega

theorem foldl_effect_hp_le (p0 : Player) (rng : Nat → V0.EnemyRng)
    (es : List Enemy) (p : Player) (h : ∀ e ∈ es, 0 ≤ e.attack) :
    (es.foldl (fun q e => V0.enemyPlayerEffect p0 rng e q) p).hp ≤ p.hp ∧
      (es.foldl (fun q e => V0.enemyPlayerEffect p0 rng e q) p).maxHp = p.maxHp := by
  induction es generalizing p with
  | nil => exact ⟨le_refl _, rfl⟩
  | cons e es ih =>
    simp only [List.foldl_cons]
    have h1 := enemyPlayerEffect_hp_le p0 rng e p (h e (by simp))
    have h2 := enemyPlayerEffect_maxHp p0 rng e p
    have h3 := ih (V0.enemyPlayerEffect p0 rng e p) (fun e2 he2 => h e2 (by simp [he2]))
    exact ⟨le_trans h3.1 h1, h3.2.trans h2⟩

/-- C2, amended.  Entered with `0 < hp ≤ maxHp` (and class-range damage
bonuses and non-negative enemy attack values), the movement-turn resolver
`processTurn` returns hp within `[0, maxHp]`: hazards, poison, blasts only
lower it, potions clamp to maxHp, and the terminal check clamps a lethal
total to 0.  The enemy-turn resolver never raises hp above maxHp — but it
lacks the clamp to 0, so its returned hp can be negative (see the
counterexample). -/
theorem c2_hp_clamped (s : GameState) (nx ny : Int) (rng : Nat → V0.EnemyRng)
    (h1 : 0 < s.player.hp) (h2 : s.player.hp ≤ s.player.maxHp)
    (h3 : 0 ≤ 50 + s.player.bombDamageBonus)
    (h4 : ∀ e ∈ s.enemies, 0 ≤ e.attack) :
    (0 ≤ (V0.processTurn s nx ny).player.hp ∧
      (V0.processTurn s nx ny).player.hp ≤ (V0.processTurn s nx ny).player.maxHp) ∧
    (V0.processEnemyTurn s rng).player.hp ≤ (V0.processEnemyTurn s rng).player.maxHp := by
  constructor
  · rw [processTurn_player_eq]
    set p1 : Player := { s.player with x := nx, y := ny } with hp1
    have e1hp : p1.hp = s.player.hp := rfl
    have e1max : p1.maxHp = s.player.maxHp := rfl
    have e1bb : p1.bombDamageBonus = s.player.bombDamageBonus := rfl
    set p2 := V0.poisonPhase p1 with hp2
    have e2hp : p2.hp ≤ s.player.hp := by rw [← e1hp]; exact poisonPhase_hp_le p1
    have e2max : p2.maxHp = s.player.maxHp := by rw [← e1max]; exact poisonPhase_maxHp p1
    have e2bb : p2.bombDamageBonus = s.player.bombDamageBonus := by
      rw [← e1bb]; exact poisonPhase_bombDamageBonus p1
    set p3 := (V0.blastPhase s.map (V0.explodedBombs s.bombs) s.enemies p2).2.2 with hp3
    have e3hp : p3.hp ≤ s.player.hp := by
      refine le_trans (blastPhase_player_hp_le _ _ _ p2 ?_) e2hp
      omega
    have e3max : p3.maxHp = s.player.maxHp := by
      rw [hp3, blastPhase_player_maxHp]; exact e2max
    set p4 := (V0.interactionPhase s nx ny p3).1 with hp4
    have e4hp : p4.hp ≤ p3.maxHp := by
      refine interactionPhase_hp_le s nx ny p3 ?_ ?_ <;> omega
    have e4max : p4.maxHp = s.player.maxHp := by
      rw [hp4, interactionPhase_maxHp]; exact e3max
    exact deathClamp_hp_bounds s.player.hp p4 h1 (by omega) (by omega)
  · rw [processEnemyTurn_player]
    have h5 := foldl_effect_hp_le s.player rng s.enemies s.player h4
    omega

/-- C2, counterexample.  After the enemy-turn resolver an adjacent goblin's
attack takes a 1-hp player to −4: the returned hp is negative, so the
claimed invariant `hp ∈ [0, maxHp]` after every resolver is false. -/
theorem c2_counterexample :
    (V0.processEnemyTurn c2State c2Rng).player.hp = -4 ∧
    (V0.processEnemyTurn c2State c2Rng).player.hp < 0 := by
  decide

/-- C2, witness for `c2_hp_clamped`. -/
theorem c2_hp_clamped_witness :
    0 ≤ (V0.processTurn (baseState openMap3 basePlayer) 1 2).player.hp ∧
    (V0.processEnemyTurn (baseState openMap3 basePlayer) c2Rng).player.hp ≤
      (V0.processEnemyTurn (baseState openMap3 basePlayer) c2Rng).player.maxHp := by
  have h := c2_hp_clamped (baseState openMap3 basePlayer) 1 2 c2Rng
    (by decide) (by decide) (by decide) (by intro e he; simp [baseState] at he)
  exact ⟨h.1.1, h.2⟩

/-! ## Claim C6 -/

/-- C6, amended.  In the `V0` stage (`handleDropBomb`) the claim holds:
placement is rejected whenever a bomb already sits on the player's own
tile, and pairwise-distinct bomb positions are preserved.  The `V1` stage
(`placeBomb`) has no such check (see the counterexample). -/
theorem c6_bomb_placement (s : GameState) (nid : Nat)
    (hnd : ((s.bombs.map (fun b => (b.x, b.y))).Nodup)) :
    (s.bombs.any (fun b => b.x == s.player.x && b.y == s.player.y) = true →
      V0.handleDropBomb s nid = s) ∧
    ((V0.handleDropBomb s nid).bombs.map (fun b => (b.x, b.y))).Nodup := by
  constructor
  · intro hx
    unfold V0.handleDropBomb
    split_ifs with h1
    · rfl
    · rfl
  · unfold V0.handleDropBomb
    split_ifs with h1 h2
    · exact hnd
    · exact hnd
    · have hmem : (s.player.x, s.player.y) ∉ s.bombs.map (fun b => (b.x, b.y)) := by
        intro hm
        rw [List.mem_map] at hm
        obtain ⟨b, hb, hxy⟩ := hm
        apply h2
        rw [List.any_eq_true]
        refine ⟨b, hb, ?_⟩
        have hx : b.x = s.player.x := congrArg Prod.fst hxy
        have hy : b.y = s.player.y := congrArg Prod.snd hxy
        simp [hx, hy]
      simp only [List.map_append, List.map_cons, List.map_nil]
      rw [List.nodup_append]
      exact ⟨hnd, List.nodup_singleton _, by
        intro a ha hb
        rw [List.mem_singleton] at hb
        exact hmem (hb ▸ ha)⟩

/-- C6, witness for `c6_bomb_placement`. -/
theorem c6_bomb_placement_witness :
    V0.handleDropBomb c6State 9 = c6State ∧
    ((V0.handleDropBomb c6State 9).bombs.map (fun b => (b.x, b.y))).Nodup := by
  have h := c6_bomb_placement c6State 9 (by decide)
  exact ⟨h.1 (by decide), h.2⟩

/-- C6, counterexample.  The `V1` stage's `placeBomb` accepts a bomb on a
tile that already holds an armed bomb: from `c6State` it produces two
armed bombs on tile (1,1), so the claim's rejection (and the derived
one-bomb-per-tile invariant) are false there. -/
theorem c6_counterexample :
    (V1.placeBomb c6State 7).bombs.map (fun b => (b.x, b.y)) = [(1, 1), (1, 1)] ∧
    ¬ ((V1.placeBomb c6State 7).bombs.map (fun b => (b.x, b.y))).Nodup ∧
    (V1.placeBomb c6State 7).player.bombs = 0 := by
  decide

/-! ## Claim C8 -/

/-- C8, amended.  A move whose target tile is a wall consumes no turn in
either stage — no bomb fuse tick, no poison tick, no enemy turn, no
position or hp change, because the returned state differs from the input
in at most the aim record.  The `V1` stage returns the state unchanged;
the `V0` stage, however, records the attempted direction in
`lastMoveDirection` BEFORE the wall check, so that one field is mutated
(see the counterexample). -/
theorem c8_wall_move_rejected (s : GameState) (d : Direction) (rng : V0.MeleeRng)
    (hw : tileAt s.map (stepPos s.player.x s.player.y d).1
            (stepPos s.player.x s.player.y d).2 = some Tile.wall) :
    V0.handleMove s d rng =
      { s with player := { s.player with lastMoveDirection := some d } } ∧
    (∀ cfg : V1.Cfg, V1.handleMove cfg s d = s) := by
  refine ⟨?_, fun cfg => ?_⟩
  · simp only [V0.handleMove]
    rw [hw]
    simp
  · simp only [V1.handleMove]
    rw [hw]
    simp

/-- C8, witness for `c8_wall_move_rejected`. -/
theorem c8_wall_move_rejected_witness :
    V0.handleMove c8State Direction.left { playerBonus := 0, retaliateBonus := 0 } =
      { c8State with player :=
          { c8State.player with lastMoveDirection := some Direction.left } } ∧
    V1.handleMove defaultCfg c8State Direction.left = c8State := by
  have h := c8_wall_move_rejected c8State Direction.left
    { playerBonus := 0, retaliateBonus := 0 } (by decide)
  exact ⟨h.1, h.2 defaultCfg⟩

/-- C8, counterexample.  In the `V0` stage a move into a wall is not free
of state mutation: `lastMoveDirection` is overwritten with the attempted
direction (here `left`, replacing `up`), although position, hp, bombs,
poison counter and enemies are untouched.  The claim's "no game-state
mutation (… lastMoveDirection …)" is therefore false. -/
theorem c8_counterexample :
    V0.handleMove c8State Direction.left { playerBonus := 0, retaliateBonus := 0 } ≠
      c8State ∧
    (V0.handleMove c8State Direction.left
      { playerBonus := 0, retaliateBonus := 0 }).player.lastMoveDirection =
      some Direction.left ∧
    c8State.player.lastMoveDirection = some Direction.up ∧
    (V0.handleMove c8State Direction.left
      { playerBonus := 0, retaliateBonus := 0 }).player.x = c8State.player.x ∧
    (V0.handleMove c8State Direction.left
      { playerBonus := 0, retaliateBonus := 0 }).player.hp = c8State.player.hp ∧
    (V0.handleMove c8State Direction.left
      { playerBonus := 0, retaliateBonus := 0 }).bombs = c8State.bombs ∧
    (V0.handleMove c8State Direction.left
      { playerBonus := 0, retaliateBonus := 0 }).player.poisonStepCounter =
      c8State.player.poisonStepCounter ∧
    (V0.handleMove c8State Direction.left
      { playerBonus := 0, retaliateBonus := 0 }).enemies = c8State.enemies := by
  decide


/-! ## Claim C4 -/

theorem deathClamp_gold (prevHp : Int) (p : Player) :
    (V0.deathClamp prevHp p).gold = p.gold := by
  unfold V0.deathClamp
  split_ifs <;> rfl

theorem processTurn_picked_eq (s : GameState) (nx ny : Int) :
    (V0.processTurn s nx ny).pickedUpItems =
      (V0.interactionPhase s nx ny
        (V0.blastPhase s.map (V0.explodedBombs s.bombs) s.enemies
          (V0.poisonPhase { s.player with x := nx, y := ny })).2.2).2 := rfl

theorem interactionPhase_gold_pickup (s : GameState) (nx ny : Int) (p : Player)
    (it : Item)
    (hw : s.wizard ≠ some (nx, ny)) (he : s.exit ≠ some (nx, ny))
    (hi : s.items.find? (fun i => i.x == nx && i.y == ny) = some it)
    (hg : it.type = ItemType.gold)
    (hnp : (nx, ny) ∉ s.pickedUpItems) :
    (V0.interactionPhase s nx ny p).1.gold = p.gold + (5 + s.level) ∧
    (nx, ny) ∈ (V0.interactionPhase s nx ny p).2 := by
  unfold V0.interactionPhase
  rw [if_neg hw, if_neg he, hi]
  rcases hh : s.hazards.find? (fun hz => hz.x == nx && hz.y == ny) with _ | hz <;>
    simp only [hh] <;> rw [if_neg hnp] <;>
    simp [V0.itemPickup, hg, hazardApply_gold]

theorem interactionPhase_gold_picked (s : GameState) (nx ny : Int) (p : Player)
    (hp : (nx, ny) ∈ s.pickedUpItems) :
    (V0.interactionPhase s nx ny p).1.gold = p.gold := by
  unfold V0.interactionPhase
  split_ifs with h1 h2
  · rfl
  · rfl
  · rcases hi : s.items.find? (fun i => i.x == nx && i.y == ny) with _ | it <;>
      rcases hh : s.hazards.find? (fun hz => hz.x == nx && hz.y == ny) with _ | hz <;>
      simp only [hi, hh] <;> simp [hp, hazardApply_gold]

/-- C4, amended.  In the `V0` stage the claim holds: stepping onto a
not-yet-collected gold item at dungeon level L (with the tile not a wizard
or exit tile) increases gold by exactly `5 + L` and records the position
in the picked-up set, and every later turn at an already-recorded position
leaves gold unchanged.  The `V1` stage's `handleMove` grants a flat 10
gold regardless of level (see the counterexample). -/
theorem c4_gold_pickup (s : GameState) (nx ny : Int) (it : Item)
    (hw : s.wizard ≠ some (nx, ny)) (he : s.exit ≠ some (nx, ny))
    (hi : s.items.find? (fun i => i.x == nx && i.y == ny) = some it)
    (hg : it.type = ItemType.gold)
    (hnp : (nx, ny) ∉ s.pickedUpItems) :
    (V0.processTurn s nx ny).player.gold = s.player.gold + (5 + s.level) ∧
    (nx, ny) ∈ (V0.processTurn s nx ny).pickedUpItems ∧
    (∀ s2 nx2 ny2, (nx2, ny2) ∈ s2.pickedUpItems →
      (V0.processTurn s2 nx2 ny2).player.gold = s2.player.gold) := by
  refine ⟨?_, ?_, ?_⟩
  · rw [processTurn_player_eq, deathClamp_gold,
      (interactionPhase_gold_pickup s nx ny _ it hw he hi hg hnp).1,
      blastPhase_player_gold, poisonPhase_gold]
  · rw [processTurn_picked_eq]
    exact (interactionPhase_gold_pickup s nx ny _ it hw he hi hg hnp).2
  · intro s2 nx2 ny2 hmem
    rw [processTurn_player_eq, deathClamp_gold,
      interactionPhase_gold_picked s2 nx2 ny2 _ hmem,
      blastPhase_player_gold, poisonPhase_gold]

/-- C4, witness for `c4_gold_pickup`: at dungeon level 3 the pickup grants
exactly 8 gold. -/
theorem c4_gold_pickup_witness :
    (V0.processTurn c4State 2 1).player.gold = 8 ∧
    (2, 1) ∈ (V0.processTurn c4State 2 1).pickedUpItems := by
  have h := c4_gold_pickup c4State 2 1 { type := .gold, x := 2, y := 1 }
    (by decide) (by decide) (by decide) (by decide) (by decide)
  exact ⟨h.1.trans (by decide), h.2.1⟩

/-- C4, counterexample.  In the `V1` stage's `handleMove`, stepping onto
the uncollected gold item at dungeon level 3 grants 10 gold, not the
claimed `5 + 3 = 8`. -/
theorem c4_counterexample :
    (V1.handleMove defaultCfg c4State Direction.right).player.gold = 10 ∧
    c4State.level = 3 ∧
    (V1.handleMove defaultCfg c4State Direction.right).player.gold ≠
      5 + c4State.level := by
  decide

/-! ## Claim C9 -/

/-- C9, amended.  In the `V0` stage the claim holds: when the projectile
enters a tile holding a living enemy, that enemy's hp drops by exactly
`⌊4·(attack + arrowDamageBonus)/5⌋` (the float product `n × 0.8` floors to
this for the engine's integer operands) plus the non-negative random
bonus `r ≤ 3`, other enemies are untouched, and the projectile is
destroyed without piercing.  The `V1` stage's arrow damage is the flat
`10 + arrowDamageBonus`, unrelated to `attack` (see the counterexample). -/
theorem c9_arrow_damage (s : GameState) (d : Direction) (r : Nat)
    (pos : Int × Int) (i : Nat) (eh : Enemy)
    (hr : r ≤ 3)
    (hw : tileAt s.map (stepPos pos.1 pos.2 d).1 (stepPos pos.1 pos.2 d).2 ≠
      some Tile.wall)
    (hf : s.enemies.findIdx? (fun e => e.x == (stepPos pos.1 pos.2 d).1 &&
            e.y == (stepPos pos.1 pos.2 d).2 && decide (0 < e.hp)) = some i)
    (he : s.enemies.get? i = some eh) :
    (V0.moveArrowStep s d r pos).1 = none ∧
    (V0.moveArrowStep s d r pos).2.enemies.get? i =
      some { eh with
              hp := eh.hp -
                (Int.fdiv (4 * (s.player.attack + s.player.arrowDamageBonus)) 5 + (r : Int))
              isHit := true } ∧
    (∀ j, j ≠ i → (V0.moveArrowStep s d r pos).2.enemies.get? j = s.enemies.get? j) ∧
    0 ≤ (r : Int) ∧ (r : Int) ≤ 3 := by
  unfold V0.moveArrowStep
  rw [if_neg hw, hf]
  dsimp only
  rw [he]
  dsimp only
  refine ⟨rfl, ?_, ?_, by positivity, by exact_mod_cast hr⟩
  · rw [List.get?_set_eq, he]
    simp [V0.arrowDamage]
  · intro j hj
    exact List.get?_set_ne _ _ (fun hij => hj hij.symm)

/-- C9, witness for `c9_arrow_damage`. -/
theorem c9_arrow_damage_witness :
    (V0.moveArrowStep c9State Direction.up 2 (0, 2)).1 = none ∧
    (V0.moveArrowStep c9State Direction.up 2 (0, 2)).2.enemies.get? 0 =
      some { c9Enemy with hp := 918, isHit := true } := by
  have h := c9_arrow_damage c9State Direction.up 2 (0, 2) 0 c9Enemy
    (by decide) (by decide) (by decide) (by decide)
  refine ⟨h.1, ?_⟩
  rw [h.2.1]
  decide

/-- C9, counterexample.  In the `V1` stage the arrow hit reduces the
enemy's hp by `10 + arrowDamageBonus = 10`, while the claimed formula
floors `(attack + arrowDamageBonus) × 0.8 = 80` and then ADDS a
non-negative bonus — 10 is below even the formula's minimum, so the claim
is false there.  The projectile is still destroyed. -/
theorem c9_counterexample :
    (V1.arrowTick c9State (0, 2) Direction.up).1 = none ∧
    (V1.arrowTick c9State (0, 2) Direction.up).2.enemies =
      [{ c9Enemy with hp := 990 }] ∧
    c9Enemy.hp - 990 = 10 ∧
    Int.fdiv (4 * (c9State.player.attack + c9State.player.arrowDamageBonus)) 5 = 80 ∧
    (10 : Int) < 80 := by
  decide

/-! ## Claim C5 -/

theorem perm_any_eq {l1 l2 : List Enemy} (h : l1.Perm l2) (f : Enemy → Bool) :
    l1.any f = l2.any f := by
  have hiff : l1.any f = true ↔ l2.any f = true := by
    rw [List.any_eq_true, List.any_eq_true]
    constructor <;> rintro ⟨x, hx, hfx⟩
    · exact ⟨x, h.mem_iff.mp hx, hfx⟩
    · exact ⟨x, h.mem_iff.mpr hx, hfx⟩
  rcases hb1 : l1.any f <;> rcases hb2 : l2.any f <;> simp_all

theorem enemyMoveResult_snapshot_perm (m : List (List Tile))
    {l1 l2 : List Enemy} (p0 : Player) (rng : Nat → V0.EnemyRng) (e : Enemy)
    (h : l1.Perm l2) :
    V0.enemyMoveResult m l1 p0 rng e = V0.enemyMoveResult m l2 p0 rng e := by
  unfold V0.enemyMoveResult
  simp only [perm_any_eq h]

theorem enemyAttackPlayer_comm (rng : Nat → V0.EnemyRng) (e1 e2 : Enemy)
    (p : Player) :
    V0.enemyAttackPlayer rng e2 (V0.enemyAttackPlayer rng e1 p) =
      V0.enemyAttackPlayer rng e1 (V0.enemyAttackPlayer rng e2 p) := by
  unfold V0.enemyAttackPlayer
  dsimp only
  split_ifs <;>
    first
    | rfl
    | (ext <;> simp_all <;> omega)

theorem enemyPlayerEffect_comm (p0 : Player) (rng : Nat → V0.EnemyRng)
    (e1 e2 : Enemy) (p : Player) :
    V0.enemyPlayerEffect p0 rng e2 (V0.enemyPlayerEffect p0 rng e1 p) =
      V0.enemyPlayerEffect p0 rng e1 (V0.enemyPlayerEffect p0 rng e2 p) := by
  unfold V0.enemyPlayerEffect
  split_ifs <;>
    first
    | rfl
    | exact enemyAttackPlayer_comm rng e1 e2 p

/-- C5, amended.  The claim holds for the stage paired with
`src/constants.ts`: `processEnemyTurn` computes every enemy's move from the
pre-turn snapshot (its enemy output is literally a `map` of a
per-enemy decision over the input snapshot), and with per-enemy random
draws the result is processing-order independent — a permutation of the
enemy list yields the identical player and a permutation of the enemy
output.  The second stage's `forEach` loop mutates the array it reads, so
enemies DO react to earlier moves of the same turn and the result is
order-dependent (see the counterexample). -/
theorem c5_enemy_snapshot (s : GameState) (rng : Nat → V0.EnemyRng)
    (l2 : List Enemy) (hperm : s.enemies.Perm l2) :
    (V0.processEnemyTurn s rng).enemies =
      s.enemies.map (V0.enemyMoveResult s.map s.enemies s.player rng) ∧
    (V0.processEnemyTurn { s with enemies := l2 } rng).player =
      (V0.processEnemyTurn s rng).player ∧
    ((V0.processEnemyTurn { s with enemies := l2 } rng).enemies).Perm
      ((V0.processEnemyTurn s rng).enemies) := by
  refine ⟨processEnemyTurn_enemies s rng, ?_, ?_⟩
  · rw [processEnemyTurn_player, processEnemyTurn_player]
    exact hperm.symm.foldl_eq'
      (fun x _ y _ z => enemyPlayerEffect_comm s.player rng x y z) s.player
  · rw [processEnemyTurn_enemies, processEnemyTurn_enemies]
    dsimp only
    have hfun : ∀ e, V0.enemyMoveResult s.map l2 s.player rng e =
        V0.enemyMoveResult s.map s.enemies s.player rng e :=
      fun e => enemyMoveResult_snapshot_perm s.map s.player rng e hperm.symm
    rw [List.map_congr_left (fun e _ => hfun e)]
    exact hperm.symm.map _

/-- C5, witness for `c5_enemy_snapshot`. -/
theorem c5_enemy_snapshot_witness :
    (V0.processEnemyTurn { c5State with enemies := [c5B, c5A] } c2Rng).player =
      (V0.processEnemyTurn c5State c2Rng).player ∧
    ((V0.processEnemyTurn { c5State with enemies := [c5B, c5A] } c2Rng).enemies).Perm
      ((V0.processEnemyTurn c5State c2Rng).enemies) := by
  have h := c5_enemy_snapshot c5State c2Rng [c5B, c5A] (by decide)
  exact ⟨h.2.1, h.2.2⟩

/-- C5, counterexample.  In the second stage, processing `[A, B]` lets the
rear enemy B advance into the tile A vacated this same turn, while
processing `[B, A]` blocks B on A's not-yet-vacated tile: the two orders
give different position multisets, so the resolution is not
order-independent and enemies do react to same-turn moves. -/
theorem c5_counterexample :
    (V1.processEnemyTurn defaultCfg c5State).enemies.map (fun e => (e.x, e.y)) =
      [(1, 0), (2, 0)] ∧
    (V1.processEnemyTurn defaultCfg
        { c5State with enemies := [c5B, c5A] }).enemies.map (fun e => (e.x, e.y)) =
      [(3, 0), (1, 0)] ∧
    ¬ (((V1.processEnemyTurn defaultCfg
          { c5State with enemies := [c5B, c5A] }).enemies.map (fun e => (e.x, e.y))).Perm
        ((V1.processEnemyTurn defaultCfg c5State).enemies.map (fun e => (e.x, e.y)))) := by
  refine ⟨by decide, by decide, ?_⟩
  intro hp
  have := hp.mem_iff.mpr (show ((2 : Int), (0 : Int)) ∈ _ by decide)
  revert this
  decide

/-! ## Claim C7 -/

theorem survivors_desc (bs : List Bomb) (b : Bomb)
    (hb : b ∈ bs) (hpos : ∀ c ∈ bs, 0 < c.stepsRemaining)
    (hnd : (bs.map Bomb.id).Nodup) :
    ∀ n : Nat,
      (∀ c ∈ survivorsAfter bs n, c.id = b.id →
        c = { b with stepsRemaining := b.stepsRemaining - (n : Int) } ∧
          (n : Int) < b.stepsRemaining) ∧
      ((n : Int) < b.stepsRemaining →
        ({ b with stepsRemaining := b.stepsRemaining - (n : Int) } : Bomb) ∈
          survivorsAfter bs n) := by
  intro n
  induction n with
  | zero =>
    constructor
    · intro c hc hid
      have hcb : c = b := List.inj_on_of_nodup_map hnd hc hb hid
      refine ⟨?_, ?_⟩
      · rw [hcb]
        ext <;> simp
      · simpa using hpos b hb
    · intro h
      have hcb : ({ b with stepsRemaining := b.stepsRemaining - ((0 : Nat) : Int) } : Bomb)
          = b := by
        ext <;> simp
      rw [hcb]
      exact hb
  | succ n ih =>
    constructor
    · intro c hc hid
      rw [show survivorsAfter bs (n + 1) = V0.tickBombs (survivorsAfter bs n) from rfl,
        V0.tickBombs, List.mem_filter] at hc
      obtain ⟨hmem, hposc⟩ := hc
      rw [List.mem_map] at hmem
      obtain ⟨c0, hc0, hdec⟩ := hmem
      have hid0 : c0.id = b.id := by
        rw [← hid, ← hdec]
      obtain ⟨hc0b, hlt⟩ := ih.1 c0 hc0 hid0
      constructor
      · rw [← hdec, hc0b]
        ext <;> simp <;> push_cast <;> ring
      · rw [← hdec, hc0b] at hposc
        simp at hposc
        push_cast
        omega
    · intro h
      have hlt : (n : Int) < b.stepsRemaining := by push_cast at h ⊢; omega
      have hmem := ih.2 hlt
      rw [show survivorsAfter bs (n + 1) = V0.tickBombs (survivorsAfter bs n) from rfl,
        V0.tickBombs, List.mem_filter]
      constructor
      · rw [List.mem_map]
        refine ⟨_, hmem, ?_⟩
        ext <;> simp <;> push_cast <;> ring
      · simp only [decide_eq_true_eq]
        push_cast at h ⊢
        omega

/-- C7.  For any bomb list with positive fuses and distinct ids (exactly
what placement produces), a bomb with fuse F is still armed after `n`
resolved turns iff `n < F`, and it appears in the detonation set of turn
`n` iff `n = F` — it detonates exactly once, exactly `F` turns after
placement, and is removed from the list at that turn.  `processTurn` ticks
the bomb list exactly once per resolved turn, and an accepted
`handleDropBomb` appends one bomb with fuse `BOMB_FUSE_STEPS = 6`. -/
theorem c7_bomb_fuse (bs : List Bomb) (b : Bomb) (n : Nat)
    (hb : b ∈ bs) (hpos : ∀ c ∈ bs, 0 < c.stepsRemaining)
    (hnd : (bs.map Bomb.id).Nodup) :
    ((survivorsAfter bs n).any (fun c => c.id == b.id) = true ↔
      (n : Int) < b.stepsRemaining) ∧
    ((explodedAt bs n).any (fun c => c.id == b.id) = true ↔
      (n : Int) = b.stepsRemaining) ∧
    (∀ (s : GameState) (nx ny : Int),
      (V0.processTurn s nx ny).bombs = V0.tickBombs s.bombs) ∧
    (∀ (s : GameState) (nid : Nat), 0 < s.player.bombs →
      s.bombs.any (fun c => c.x == s.player.x && c.y == s.player.y) = false →
      (V0.handleDropBomb s nid).bombs =
        s.bombs ++ [{ x := s.player.x, y := s.player.y,
                      stepsRemaining := V0.BOMB_FUSE_STEPS, id := nid }]) ∧
    V0.BOMB_FUSE_STEPS = 6 := by
  refine ⟨?_, ?_, fun s nx ny => rfl, ?_, rfl⟩
  · rw [List.any_eq_true]
    constructor
    · rintro ⟨c, hc, hid⟩
      rw [beq_iff_eq] at hid
      exact ((survivors_desc bs b hb hpos hnd n).1 c hc hid).2
    · intro h
      exact ⟨_, (survivors_desc bs b hb hpos hnd n).2 h, by simp⟩
  · cases n with
    | zero =>
      constructor
      · intro hx
        simp [explodedAt] at hx
      · intro hx
        exfalso
        have := hpos b hb
        omega
    | succ n =>
      rw [show explodedAt bs (n + 1) = V0.explodedBombs (survivorsAfter bs n) from rfl,
        V0.explodedBombs, List.any_eq_true]
      constructor
      · rintro ⟨c, hc, hid⟩
        rw [List.mem_filter] at hc
        obtain ⟨hmem, hle⟩ := hc
        rw [List.mem_map] at hmem
        obtain ⟨c0, hc0, hdec⟩ := hmem
        rw [beq_iff_eq] at hid
        have hid0 : c0.id = b.id := by
          rw [← hid, ← hdec]
        obtain ⟨hc0b, hlt⟩ := (survivors_desc bs b hb hpos hnd n).1 c0 hc0 hid0
        rw [← hdec, hc0b] at hle
        simp only [decide_eq_true_eq] at hle
        push_cast at hle ⊢
        omega
      · intro h
        have hlt : (n : Int) < b.stepsRemaining := by push_cast at h ⊢; omega
        have hmem := (survivors_desc bs b hb hpos hnd n).2 hlt
        refine ⟨{ b with stepsRemaining := b.stepsRemaining - (n : Int) - 1 }, ?_, by simp⟩
        rw [List.mem_filter]
        refine ⟨List.mem_map.mpr ⟨_, hmem, rfl⟩, ?_⟩
        simp only [decide_eq_true_eq]
        push_cast at h ⊢
        omega
  · intro s nid hb0 hany
    unfold V0.handleDropBomb
    rw [if_neg (by omega), hany]
    rw [if_neg (by simp)]

/-- C7, witness for `c7_bomb_fuse`: a bomb with fuse 6 is gone from the
armed list at turn 6, detonates at turn 6, and does not detonate at
turn 3. -/
theorem c7_bomb_fuse_witness :
    ¬ ((survivorsAfter [bombW] 6).any (fun c => c.id == bombW.id) = true) ∧
    (explodedAt [bombW] 6).any (fun c => c.id == bombW.id) = true ∧
    ¬ ((explodedAt [bombW] 3).any (fun c => c.id == bombW.id) = true) := by
  have h6 := c7_bomb_fuse [bombW] bombW 6 (by decide) (by decide) (by decide)
  have h3 := c7_bomb_fuse [bombW] bombW 3 (by decide) (by decide) (by decide)
  refine ⟨?_, h6.2.1.mpr (by decide), ?_⟩
  · intro hx
    exact absurd (h6.1.mp hx) (by decide)
  · intro hx
    exact absurd (h3.2.1.mp hx) (by decide)

/-! ## Claim C10 -/

theorem stepPos_eq (x y : Int) (d : Direction) :
    stepPos x y d = (x + dirDx d, y + dirDy d) := by
  cases d <;> simp [stepPos, dirDx, dirDy, Prod.ext_iff] <;> ring

theorem tileAt_none_of_neg (m : List (List Tile)) (x y : Int)
    (h : y < 0 ∨ x < 0) : tileAt m x y = none := by
  unfold tileAt
  rw [if_neg (by omega)]

theorem tileAt_none_of_height (m : List (List Tile)) (x y : Int)
    (h : (m.length : Int) ≤ y) : tileAt m x y = none := by
  unfold tileAt
  split_ifs with hc
  · rw [List.get?_eq_none.mpr (by omega)]
    rfl
  · rfl

theorem tileAt_none_of_width (m : List (List Tile)) (x y : Int)
    (h0 : ∀ row ∈ m, (row.length : Int) ≤ x) : tileAt m x y = none := by
  unfold tileAt
  split_ifs with hc
  · rcases hrow : m.get? y.toNat with _ | row
    · rfl
    · show row.get? x.toNat = none
      have hr := h0 row (List.get?_mem hrow)
      rw [List.get?_eq_none.mpr (by omega)]
  · rfl

theorem rows_le_maxRowLen (m : List (List Tile)) :
    ∀ row ∈ m, row.length ≤ maxRowLen m := by
  induction m with
  | nil =>
    intro row h
    simp at h
  | cons r tl ih =>
    intro row h
    rcases List.mem_cons.mp h with h1 | h2
    · subst h1
      simp [maxRowLen]
    · exact le_trans (ih row h2) (by simp [maxRowLen])

theorem v1_fly_pos (m : List (List Tile)) (es : List Enemy) (d : Direction)
    (start : Int × Int) :
    ∀ n q, V1.arrowFly m es d start n = some q →
      q = (start.1 + dirDx d * n, start.2 + dirDy d * n) := by
  intro n
  induction n with
  | zero =>
    intro q hq
    rw [show V1.arrowFly m es d start 0 = some start from rfl] at hq
    obtain rfl := Option.some.inj hq
    simp [Prod.ext_iff]
  | succ n ih =>
    intro q hq
    rw [show V1.arrowFly m es d start (n + 1) =
      (V1.arrowFly m es d start n).bind (V1.arrowFlyStep m es d) from rfl] at hq
    rcases hfly : V1.arrowFly m es d start n with _ | q0
    · rw [hfly] at hq
      simp at hq
    · rw [hfly] at hq
      replace hq : V1.arrowFlyStep m es d q0 = some q := hq
      have hq0 := ih q0 hfly
      simp only [V1.arrowFlyStep] at hq
      split_ifs at hq
      all_goals
        first
        | exact Option.noConfusion hq
        | (obtain rfl := (Option.some.inj hq).symm
           rw [stepPos_eq, hq0]
           simp [Prod.ext_iff]
           constructor <;> push_cast <;> ring)

theorem v1_stops_of_oob (m : List (List Tile)) (es : List Enemy)
    (d : Direction) (start : Int × Int) (N : Nat)
    (h : tileAt m (start.1 + dirDx d * N + dirDx d)
      (start.2 + dirDy d * N + dirDy d) = none) :
    V1.arrowStops m es d start := by
  rcases hN : V1.arrowFly m es d start N with _ | q
  · exact ⟨N, hN⟩
  · refine ⟨N + 1, ?_⟩
    rw [show V1.arrowFly m es d start (N + 1) =
      (V1.arrowFly m es d start N).bind (V1.arrowFlyStep m es d) from rfl, hN]
    show V1.arrowFlyStep m es d q = none
    have hq := v1_fly_pos m es d start N q hN
    unfold V1.arrowFlyStep
    rw [stepPos_eq, hq]
    dsimp only
    rw [if_pos (by rw [h]; simp)]

/-- C10, amended.  The claim holds for the second stage: its projectile
check destroys the arrow on every non-floor tile, which includes positions
outside the map, so for EVERY map, start and direction the flight reaches
a terminal state after finitely many steps (whereupon the interval is
cleared and the animation lock released).  The `V0` stage's `moveArrow`
checks only `map[y]?.[x] === 1` — an out-of-bounds tile is not a wall —
so on a map whose boundary row or column in the line of flight is floor
the projectile never terminates (see the counterexample). -/
theorem c10_arrow_terminates (m : List (List Tile)) (es : List Enemy)
    (d : Direction) (start : Int × Int) :
    V1.arrowStops m es d start := by
  cases d with
  | up =>
    apply v1_stops_of_oob m es Direction.up start start.2.toNat
    apply tileAt_none_of_neg
    left
    simp only [dirDy]
    omega
  | down =>
    apply v1_stops_of_oob m es Direction.down start (m.length + start.2.natAbs)
    apply tileAt_none_of_height
    simp only [dirDy]
    omega
  | left =>
    apply v1_stops_of_oob m es Direction.left start start.1.toNat
    apply tileAt_none_of_neg
    right
    simp only [dirDx]
    omega
  | right =>
    apply v1_stops_of_oob m es Direction.right start (maxRowLen m + start.1.natAbs)
    apply tileAt_none_of_width
    intro row hrow
    have hr := rows_le_maxRowLen m row hrow
    simp only [dirDx]
    omega

theorem v0_fly_openMap3 (n : Nat) :
    V0.arrowFly openMap3 [] Direction.up (1, 1) n = some (1, 1 - (n : Int)) := by
  induction n with
  | zero => simp [V0.arrowFly]
  | succ n ih =>
    rw [show V0.arrowFly openMap3 [] Direction.up (1, 1) (n + 1) =
      (V0.arrowFly openMap3 [] Direction.up (1, 1) n).bind
        (V0.arrowFlyStep openMap3 [] Direction.up) from rfl, ih]
    show V0.arrowFlyStep openMap3 [] Direction.up (1, 1 - (n : Int)) =
      some (1, 1 - ((n + 1 : Nat) : Int))
    unfold V0.arrowFlyStep
    dsimp only [stepPos]
    have htile : tileAt openMap3 1 (1 - (n : Int) - 1) ≠ some Tile.wall := by
      rcases Nat.eq_zero_or_pos n with h0 | hpos2
      · subst h0
        decide
      · rw [tileAt_none_of_neg openMap3 _ _ (by left; omega)]
        simp
    rw [if_neg htile]
    simp [Prod.ext_iff]
    try omega

/-- C10, counterexample.  On a 3×3 all-floor map with no enemies, the `V0`
stage's projectile fired upward from (1,1) is never destroyed: after `n`
steps it is still in flight at y = 1 − n, because the wall check treats
out-of-bounds tiles as non-walls and nothing else stops it.  The claimed
"terminates for every map" is false for that stage. -/
theorem c10_counterexample :
    ¬ V0.arrowStops openMap3 [] Direction.up (1, 1) := by
  rintro ⟨n, hn⟩
  rw [v0_fly_openMap3 n] at hn
  simp at hn

end Sproingle
